import Mathlib

/-!
Verification of the notes4u client logic.

Shallow embedding of the note-taking client:
* `Note` mirrors the `notes` row shape (`src/app/notes/[id]/page.tsx`, table
  definition in the migrations: `id`, `user_id`, `title`, `content`,
  `created_at`, `is_public`, `tags`).
* `applyEvent` embeds the realtime payload handler of the list view
  (`src/app/notes/page.tsx`, lines 83-97): INSERT prepends `payload.new`,
  UPDATE maps over the list replacing the matching id, DELETE filters out
  the matching id.
* `handleAddTag` / `handleRemoveTag` embed the tag handlers that appear
  identically in `src/components/notes/NoteForm.tsx` and
  `src/app/notes/[id]/page.tsx`.
* `handleSave`, `handleDelete`, `handleAddNote`, `handleUpdateNote`,
  `handleDeleteNote`, `handleSubmit` embed the mutation handlers of the two
  pages and of the form component.  Network activity is reified as an
  `Option NetRequest`; user-facing error state as an `Option ErrMsg`.
* `canSelect` embeds the row-level-security SELECT policies of
  `src/supabase/migrations/20240402000001_add_rls_security_policies.sql`;
  `singleById` models the PostgREST `.single()` call used by the single-note
  page, which reports the error code PGRST116 whenever the number of
  visible matching rows is not exactly one.
* `jsTrim` and `jsToLower` model JavaScript `String.prototype.trim` and
  `String.prototype.toLowerCase` (ASCII case mapping) on Lean strings.
-/

/-- A row of the `notes` table as held by the client.  Timestamps are
modelled as natural numbers (only their ordering matters). -/
structure Note where
  id : String
  title : String
  content : String
  created_at : Nat
  user_id : String
  is_public : Bool
  tags : List String
deriving DecidableEq

/-- A realtime change-feed event as delivered to the subscription handler in
`src/app/notes/page.tsx` (INSERT / UPDATE carry `payload.new`, DELETE carries
`payload.old.id`). -/
inductive NoteEvent where
  | inserted (n : Note)
  | updated (n : Note)
  | deleted (noteId : String)
deriving DecidableEq

/-- The realtime payload handler (`src/app/notes/page.tsx` lines 83-97):
INSERT prepends the new row, UPDATE replaces the row with the matching id in
place, DELETE removes the row with the matching id. -/
def applyEvent (notes : List Note) : NoteEvent → List Note
  | .inserted n => n :: notes
  | .updated n => notes.map fun note => if note.id = n.id then n else note
  | .deleted i => notes.filter fun note => decide (note.id ≠ i)

/-- Apply a sequence of change-feed events in arrival order. -/
def applyEvents (notes : List Note) (es : List NoteEvent) : List Note :=
  es.foldl applyEvent notes

/-- `true` when the event is an INSERT. -/
def NoteEvent.isInsert : NoteEvent → Bool
  | .inserted _ => true
  | _ => false

/-- A sequence of events containing no INSERT events. -/
def hasNoInsert (es : List NoteEvent) : Bool :=
  es.all fun e => !e.isInsert

/-- Characters removed by JavaScript `String.prototype.trim`. -/
def isSpaceChar (c : Char) : Bool :=
  c = ' ' ∨ c = '\t' ∨ c = '\n' ∨ c = '\r'

/-- Model of JavaScript `String.prototype.trim`: drop whitespace from both
ends. -/
def jsTrim (s : String) : String :=
  String.mk (((s.data.dropWhile isSpaceChar).reverse.dropWhile isSpaceChar).reverse)

/-- Model of JavaScript `String.prototype.toLowerCase` (ASCII case
mapping): lower-case every character. -/
def jsToLower (s : String) : String :=
  String.mk (s.data.map Char.toLower)

/-- The tag-add handler (`NoteForm.tsx` lines 41-47 and
`src/app/notes/[id]/page.tsx` lines 147-153): trim and lower-case the raw
input, and append it to the tag list unless it is empty or already
present. -/
def handleAddTag (tagInput : String) (tags : List String) : List String :=
  let trimmedTag := jsToLower (jsTrim tagInput)
  if trimmedTag ≠ "" ∧ trimmedTag ∉ tags then tags ++ [trimmedTag] else tags

/-- The tag-remove handler (`NoteForm.tsx` lines 49-51 and
`src/app/notes/[id]/page.tsx` lines 155-157): keep every tag different from
the removed one. -/
def handleRemoveTag (tagToRemove : String) (tags : List String) : List String :=
  tags.filter fun tag => decide (tag ≠ tagToRemove)

/-- The invariant stated by the spec for the tag set: no duplicates, no
empty strings, only lower-case strings. -/
def TagInvariant (tags : List String) : Prop :=
  tags.Nodup ∧ ∀ t ∈ tags, t ≠ "" ∧ jsToLower t = t

/-- The derived authorization flag of the single-note page
(`src/app/notes/[id]/page.tsx` line 145):
`isAuthor = user && note && user.id === note.user_id`, recomputed from the
current session and note on every evaluation. -/
def isAuthor (user : Option String) (note : Option Note) : Bool :=
  match user, note with
  | some u, some n => decide (u = n.user_id)
  | _, _ => false

/-- The distinct user-facing error messages set by the mutation handlers.
Constructors correspond to the string literals in the source:
`mustBeLoggedIn` and `titleContentRequired` are the login and validation
messages of `handleSave`; `editPermissionDenied` and
`deletePermissionDenied` are the permission messages of `handleSave` and
`handleDelete` in `src/app/notes/[id]/page.tsx`. -/
inductive ErrMsg where
  | mustBeLoggedIn
  | titleContentRequired
  | editPermissionDenied
  | deletePermissionDenied
deriving DecidableEq

/-- The row object passed to a database insert.  `is_public` and `tags` are
`none` when the corresponding column is omitted from the insert payload, in
which case the table defaults apply. -/
structure NotesInsert where
  title : String
  content : String
  user_id : String
  is_public : Option Bool
  tags : Option (List String)
deriving DecidableEq

/-- A network request issued by a handler against the `notes` table.  Every
update and delete carries the owner predicate (`.eq(user_id, ...)`) the
source attaches to it. -/
inductive NetRequest where
  | insertReq (row : NotesInsert)
  | updateReq (noteId : String) (ownerScope : String) (title content : String)
      (is_public : Option Bool) (tags : Option (List String))
  | deleteReq (noteId : String) (ownerScope : String)
deriving DecidableEq

/-- Observable outcome of running a mutation handler: the request it issued
(if any) and the error message it surfaced (if any). -/
structure HandlerResult where
  request : Option NetRequest
  errorMsg : Option ErrMsg
deriving DecidableEq

/-- The object a `NoteForm` submission passes to `onSubmit`
(`NoteForm.tsx` lines 31-39): the form state spread together with the id of
the note being edited (absent for the create form). -/
structure NoteFormPayload where
  title : String
  content : String
  id : Option String
  is_public : Option Bool
  tags : Option (List String)
deriving DecidableEq

/-- The local state of `NoteForm` (`NoteForm.tsx` lines 12-17). -/
structure NoteFormState where
  title : String
  content : String
  is_public : Bool
  tags : List String
deriving DecidableEq

/-- `NoteForm.handleSubmit` (`NoteForm.tsx` lines 31-39): when both trimmed
fields are non-empty, call `onSubmit` with the form state plus the initial
id; otherwise do nothing at all (no submission and no error state). -/
def handleSubmit (note : NoteFormState) (initialId : Option String) :
    Option NoteFormPayload :=
  if jsTrim note.title ≠ "" ∧ jsTrim note.content ≠ "" then
    some { title := note.title, content := note.content, id := initialId,
           is_public := some note.is_public, tags := some note.tags }
  else none

/-- `handleAddNote` of the list view (`src/app/notes/page.tsx` lines
106-129): requires a session, then inserts a row carrying only `title`,
`content` and `user_id` — the `is_public` and `tags` values of the payload
are ignored and the columns are omitted from the insert. -/
def handleAddNote (user : Option String) (noteData : NoteFormPayload) :
    HandlerResult :=
  match user with
  | none => { request := none, errorMsg := none }
  | some u =>
      { request := some (.insertReq
          { title := noteData.title, content := noteData.content,
            user_id := u, is_public := none, tags := none }),
        errorMsg := none }

/-- The full create path of the list view: a `NoteForm` submission routed
into `handleAddNote` (the create form has no initial id). -/
def createViaListView (user : Option String) (form : NoteFormState) :
    HandlerResult :=
  match handleSubmit form none with
  | none => { request := none, errorMsg := none }
  | some payload => handleAddNote user payload

/-- `handleUpdateNote` of the list view (`src/app/notes/page.tsx` lines
131-167): requires a payload id and a session, then always issues the
owner-scoped update request — there is no local ownership check. -/
def handleUpdateNote (user : Option String) (updatedNote : NoteFormPayload) :
    HandlerResult :=
  match updatedNote.id, user with
  | some i, some u =>
      { request := some (.updateReq i u updatedNote.title updatedNote.content
          updatedNote.is_public updatedNote.tags),
        errorMsg := none }
  | _, _ => { request := none, errorMsg := none }

/-- `handleDeleteNote` of the list view (`src/app/notes/page.tsx` lines
169-192): requires a session, then always issues the owner-scoped delete
request — there is no local ownership check. -/
def handleDeleteNote (user : Option String) (i : String) : HandlerResult :=
  match user with
  | some u => { request := some (.deleteReq i u), errorMsg := none }
  | none => { request := none, errorMsg := none }

/-- `handleSave` of the single-note page (`src/app/notes/[id]/page.tsx`
lines 166-244): login check, then validation of the trimmed fields, then —
for an existing note — the `isAuthor` pre-check, then the insert (new note)
or owner-scoped update (existing note). -/
def handleSave (user : Option String) (note : Option Note) (isNewNote : Bool)
    (editedTitle editedContent : String) (editedIsPublic : Bool)
    (editedTags : List String) (paramsId : String) : HandlerResult :=
  match user with
  | none => { request := none, errorMsg := some .mustBeLoggedIn }
  | some u =>
      if jsTrim editedTitle = "" ∨ jsTrim editedContent = "" then
        { request := none, errorMsg := some .titleContentRequired }
      else if ¬isNewNote ∧ ¬(isAuthor (some u) note) then
        { request := none, errorMsg := some .editPermissionDenied }
      else if isNewNote then
        { request := some (.insertReq
            { title := editedTitle, content := editedContent, user_id := u,
              is_public := some editedIsPublic, tags := some editedTags }),
          errorMsg := none }
      else
        { request := some (.updateReq paramsId u editedTitle editedContent
            (some editedIsPublic) (some editedTags)),
          errorMsg := none }

/-- `handleDelete` of the single-note page (`src/app/notes/[id]/page.tsx`
lines 246-280): requires a loaded note and a session, then the `isAuthor`
pre-check, then a confirmation dialog, then the owner-scoped delete. -/
def handleDelete (user : Option String) (note : Option Note)
    (confirmed : Bool) : HandlerResult :=
  match note, user with
  | some n, some u =>
      if ¬(isAuthor (some u) (some n)) then
        { request := none, errorMsg := some .deletePermissionDenied }
      else if ¬confirmed then { request := none, errorMsg := none }
      else { request := some (.deleteReq n.id u), errorMsg := none }
  | _, _ => { request := none, errorMsg := none }

/-- The error code PostgREST reports for a `.single()` call that did not
match exactly one visible row. -/
def codePGRST116 : String := "PGRST116"

/-- The message shown when the single-note load reports PGRST116
(`src/app/notes/[id]/page.tsx` line 108). -/
def msgNotFound : String := "Note not found"

/-- The message shown when the single-note load reports any other error
(`src/app/notes/[id]/page.tsx` line 110). -/
def msgPrivateNote : String := "This note is private"

/-- The SELECT policies of
`20240402000001_add_rls_security_policies.sql`: a row is visible when it is
public, or when the authenticated user (if any) is its owner. -/
def canSelect (viewer : Option String) (r : Note) : Bool :=
  r.is_public || decide (viewer = some r.user_id)

/-- Result of the access-controlled `.single()` fetch used by `fetchNote`. -/
inductive SingleResult where
  | row (n : Note)
  | queryError (code : String)
deriving DecidableEq

/-- The `.eq(id, ...).single()` query of the single-note page
(`src/app/notes/[id]/page.tsx` lines 96-100): the row-level-security
policies filter the table down to the rows visible to the viewer, and
`.single()` succeeds only when exactly one row with the requested id
remains, reporting PGRST116 otherwise. -/
def singleById (db : List Note) (viewer : Option String) (i : String) :
    SingleResult :=
  match db.filter (fun r => canSelect viewer r && decide (r.id = i)) with
  | [r] => .row r
  | _ => .queryError codePGRST116

/-- The user-facing outcome of `fetchNote` (`src/app/notes/[id]/page.tsx`
lines 93-112): `none` on success, otherwise the message chosen by the error
branch (PGRST116 maps to the not-found message, anything else to the
private-note message). -/
def fetchNoteOutcome (db : List Note) (viewer : Option String) (i : String) :
    Option String :=
  match singleById db viewer i with
  | .row _ => none
  | .queryError code =>
      if code = codePGRST116 then some msgNotFound else some msgPrivateNote

/-- Server-side completion of an insert
(`20240401000001_add_public_tags_to_notes.sql`): the server assigns the id
and timestamp, and the omitted columns take the table defaults
`is_public = false` and `tags = empty`. -/
def persistRow (r : NotesInsert) (newId : String) (now : Nat) : Note :=
  { id := newId, title := r.title, content := r.content, created_at := now,
    user_id := r.user_id, is_public := r.is_public.getD false,
    tags := r.tags.getD [] }

/-- The Local Note Set invariant used by the spec for ordering: notes are
sorted by creation time, newest first. -/
def sortedByCreatedDesc (l : List Note) : Prop :=
  l.Pairwise fun a b => b.created_at ≤ a.created_at

/-- Sample owner identity used by concrete witnesses. -/
def userOne : String := "user-1"

/-- A second identity, never an owner of the sample notes. -/
def userTwo : String := "user-2"

/-- Sample note A of the spec scenario: created at time 3. -/
def noteA : Note :=
  { id := "nA", title := "A", content := "body A", created_at := 3,
    user_id := "user-1", is_public := false, tags := [] }

/-- Sample note B of the spec scenario: created at time 1. -/
def noteB : Note :=
  { id := "nB", title := "B", content := "body B", created_at := 1,
    user_id := "user-1", is_public := false, tags := [] }

/-- Sample note C of the spec scenario: created at time 5. -/
def noteC : Note :=
  { id := "nC", title := "C", content := "body C", created_at := 5,
    user_id := "user-1", is_public := false, tags := [] }

/-- A variant of note A sharing its id but with a different title. -/
def noteA2 : Note :=
  { id := "nA", title := "A edited", content := "body A", created_at := 3,
    user_id := "user-1", is_public := false, tags := [] }

/-- A concrete UPDATE/DELETE event sequence used by the idempotence
witness. -/
def sampleEvents : List NoteEvent :=
  [NoteEvent.updated noteA2, NoteEvent.deleted noteB.id]

/-- First raw tag input of the spec scenario (mixed case). -/
def tagInputA : String := "Work"

/-- Second and third raw tag input of the spec scenario (lower case). -/
def tagInputB : String := "work"

/-- A form payload built from the stale local copy of note A, as submitted
by an editing session that does not own the note. -/
def staleUpdatePayload : NoteFormPayload :=
  { title := noteA.title, content := noteA.content, id := some noteA.id,
    is_public := some noteA.is_public, tags := some noteA.tags }

/-- A form state whose title is empty after trimming. -/
def emptyTitleForm : NoteFormState :=
  { title := "", content := "some body", is_public := true,
    tags := [] }

/-- A form state whose content is empty after trimming. -/
def emptyContentForm : NoteFormState :=
  { title := "a title", content := "   ", is_public := false,
    tags := [] }
/-- One step of the UPDATE reconciliation: the effect of a single event on a
single held note (INSERT and DELETE leave the note itself unchanged). -/
def updStep (n : Note) (e : NoteEvent) : Note :=
  match e with
  | .inserted _ => n
  | .updated u => if n.id = u.id then u else n
  | .deleted _ => n

/-- The cumulative effect of a sequence of events on a single held note. -/
def applyUpds (es : List NoteEvent) (n : Note) : Note :=
  es.foldl updStep n

/-- A note id survives a sequence of events when no DELETE in the sequence
targets it. -/
def survives (es : List NoteEvent) (x : String) : Bool :=
  es.all fun e =>
    match e with
    | .inserted _ => true
    | .updated _ => true
    | .deleted i => decide (x ≠ i)

/-- The last UPDATE event in a sequence whose payload carries the given id,
if any. -/
def lastUpd : List NoteEvent → String → Option Note
  | [], _ => none
  | .inserted _ :: es, x => lastUpd es x
  | .deleted _ :: es, x => lastUpd es x
  | .updated u :: es, x =>
      match lastUpd es x with
      | some v => some v
      | none => if u.id = x then some u else none

theorem updStep_id (n : Note) (e : NoteEvent) : (updStep n e).id = n.id := by
  cases e with
  | inserted m => rfl
  | updated u =>
      simp only [updStep]
      split
      next h => exact h.symm
      next h => rfl
  | deleted i => rfl

theorem applyUpds_id (es : List NoteEvent) (n : Note) :
    (applyUpds es n).id = n.id := by
  induction es generalizing n with
  | nil => rfl
  | cons e es ih =>
      have step : applyUpds (e :: es) n = applyUpds es (updStep n e) := rfl
      rw [step, ih, updStep_id]

theorem lastUpd_id (es : List NoteEvent) (x : String) (u : Note)
    (h : lastUpd es x = some u) : u.id = x := by
  induction es with
  | nil => simp [lastUpd] at h
  | cons e es ih =>
      cases e with
      | inserted m => exact ih (by rw [lastUpd] at h; exact h)
      | deleted i => exact ih (by rw [lastUpd] at h; exact h)
      | updated v =>
          rw [lastUpd] at h
          cases hrest : lastUpd es x with
          | some w =>
              rw [hrest] at h
              exact ih (by rw [hrest]; exact h)
          | none =>
              rw [hrest] at h
              by_cases hv : v.id = x
              · rw [if_pos hv] at h
                cases h
                exact hv
              · rw [if_neg hv] at h
                cases h
theorem applyUpds_eq_lastUpd (es : List NoteEvent) (n : Note) :
    applyUpds es n = (lastUpd es n.id).getD n := by
  induction es generalizing n with
  | nil => rfl
  | cons e es ih =>
      have step : applyUpds (e :: es) n = applyUpds es (updStep n e) := rfl
      rw [step, ih (updStep n e), updStep_id]
      cases e with
      | inserted m => simp [lastUpd, updStep]
      | deleted i => simp [lastUpd, updStep]
      | updated u =>
          cases hrest : lastUpd es n.id with
          | some v => simp [lastUpd, hrest, updStep]
          | none =>
              by_cases hu : u.id = n.id
              · simp only [lastUpd, hrest, updStep, Option.getD_none]
                rw [if_pos hu, if_pos hu.symm]
                rfl
              · have hn : ¬ n.id = u.id := fun hh => hu hh.symm
                simp [lastUpd, hrest, updStep, hu, hn]

theorem applyUpds_idem (es : List NoteEvent) (n : Note) :
    applyUpds es (applyUpds es n) = applyUpds es n := by
  rw [applyUpds_eq_lastUpd es (applyUpds es n), applyUpds_id,
    applyUpds_eq_lastUpd es n]
  cases lastUpd es n.id <;> rfl
theorem applyEvents_char (es : List NoteEvent) (h : hasNoInsert es = true)
    (l : List Note) :
    applyEvents l es = (l.filter fun n => survives es n.id).map (applyUpds es) := by
  induction es generalizing l with
  | nil =>
      have h1 : (l.filter fun n => survives [] n.id) = l :=
        List.filter_eq_self.mpr fun a _ => rfl
      have h2 : l.map (applyUpds []) = l.map id :=
        List.map_congr_left fun a _ => rfl
      rw [applyEvents, List.foldl_nil, h1, h2, List.map_id]
  | cons e es ih =>
      have hes : hasNoInsert es = true := by
        simp only [hasNoInsert, List.all_cons, Bool.and_eq_true] at h
        exact h.2
      have step : applyEvents l (e :: es) = applyEvents (applyEvent l e) es := rfl
      rw [step, ih hes]
      cases e with
      | inserted m =>
          exfalso
          simp [hasNoInsert, NoteEvent.isInsert] at h
      | updated u =>
          show ((l.map fun note => if note.id = u.id then u else note).filter
              fun n => survives es n.id).map (applyUpds es) = _
          rw [List.filter_map, List.map_map]
          have hpred : (l.filter fun n => survives (NoteEvent.updated u :: es) n.id)
              = l.filter ((fun n => survives es n.id) ∘
                  fun note => if note.id = u.id then u else note) := by
            apply List.filter_congr
            intro x hx
            have hid : ((fun note => if note.id = u.id then u else note) x).id = x.id :=
              updStep_id x (.updated u)
            simp only [Function.comp, hid, survives, List.all_cons, Bool.true_and]
          rw [hpred]
          apply List.map_congr_left
          intro n hn
          rfl
      | deleted i =>
          show ((l.filter fun note => decide (note.id ≠ i)).filter
              fun n => survives es n.id).map (applyUpds es) = _
          rw [List.filter_filter]
          have hpred : (l.filter fun n => survives (NoteEvent.deleted i :: es) n.id)
              = l.filter fun n => survives es n.id && decide (n.id ≠ i) := by
            apply List.filter_congr
            intro x hx
            simp only [survives, List.all_cons, Bool.and_comm]
          rw [hpred]
          apply List.map_congr_left
          intro n hn
          rfl
/-- Claim C1 (counterexample): applying the same event sequence twice is not
always the same as applying it once — re-applying a single INSERT event
duplicates the inserted note. -/
theorem applyEvents_twice_ne_once :
    applyEvents (applyEvents [] [NoteEvent.inserted noteA])
        [NoteEvent.inserted noteA]
      ≠ applyEvents [] [NoteEvent.inserted noteA] := by decide

/-- Claim C1 (amended): for every local note list and every sequence of
`Updated` and `Deleted` events (no `Inserted` events), applying the exact
same sequence twice yields the same final note list as applying it once. -/
theorem update_delete_events_idempotent (es : List NoteEvent)
    (l : List Note) (h : hasNoInsert es = true) :
    applyEvents (applyEvents l es) es = applyEvents l es := by
  rw [applyEvents_char es h l, applyEvents_char es h]
  rw [List.filter_map, List.map_map]
  have hpred : ((l.filter fun n => survives es n.id).filter
      ((fun n => survives es n.id) ∘ applyUpds es))
      = l.filter fun n => survives es n.id := by
    apply List.filter_eq_self.mpr
    intro a ha
    have hid : survives es (applyUpds es a).id = survives es a.id := by
      rw [applyUpds_id]
    simp only [Function.comp, hid]
    exact (List.mem_filter.mp ha).2
  rw [hpred]
  apply List.map_congr_left
  intro n hn
  exact applyUpds_idem es n

/-- Witness for the amended claim C1 at a concrete list and sequence. -/
theorem update_delete_events_idempotent_witness :
    applyEvents (applyEvents [noteA, noteB] sampleEvents) sampleEvents
      = applyEvents [noteA, noteB] sampleEvents :=
  update_delete_events_idempotent sampleEvents [noteA, noteB] (by decide)

/-- Claim C2 (counterexample): an `Inserted` event whose note id already
occurs in the list does not replace the existing note in place — the handler
prepends unconditionally, so the list keeps both copies. -/
theorem inserted_existing_id_not_replaced :
    noteA2.id = noteA.id ∧
    applyEvent [noteA] (NoteEvent.inserted noteA2) ≠ [noteA2] := by decide

/-- Claim C2 (amended): an `Inserted(note)` event always inserts the note at
the head of the list, regardless of whether a note with the same id is
already present; when every held note was created no later than the new one,
head insertion preserves the newest-created-first order. -/
theorem inserted_event_head_order (l : List Note) (n : Note)
    (hsorted : sortedByCreatedDesc l)
    (hnew : ∀ m ∈ l, m.created_at ≤ n.created_at) :
    applyEvent l (.inserted n) = n :: l ∧
    sortedByCreatedDesc (applyEvent l (.inserted n)) :=
  ⟨rfl, List.Pairwise.cons hnew hsorted⟩

/-- Witness for the amended claim C2: the spec scenario
[A(t=3), B(t=1)] plus Inserted(C, t=5) yields [C, A, B], still sorted
newest-created first. -/
theorem inserted_event_head_order_witness :
    applyEvent [noteA, noteB] (NoteEvent.inserted noteC)
      = [noteC, noteA, noteB] ∧
    sortedByCreatedDesc (applyEvent [noteA, noteB] (NoteEvent.inserted noteC)) :=
  inserted_event_head_order [noteA, noteB] noteC
    (by simp [sortedByCreatedDesc, noteA, noteB]) (by decide)

/-- Claim C7: an `Updated(note)` event preserves the length of the list and
acts pointwise: the entry at each position is replaced by the event payload
exactly when its id matches, and is unchanged otherwise — so the matching
note keeps its position and all other notes are untouched. -/
theorem updated_event_in_place (l : List Note) (u : Note) :
    (applyEvent l (.updated u)).length = l.length ∧
    ∀ i : Nat, (applyEvent l (.updated u))[i]? =
      (l[i]?).map fun m => if m.id = u.id then u else m := by
  constructor
  · show (l.map fun note => if note.id = u.id then u else note).length = l.length
    rw [List.length_map]
  · intro i
    show (l.map fun note => if note.id = u.id then u else note)[i]? = _
    rw [List.getElem?_map]

/-- Claim C8: a `Deleted(noteId)` event keeps exactly the notes whose id
differs from the deleted id, and when no held note has that id the event
leaves the list unchanged (a no-op, no error). -/
theorem deleted_event_spec (l : List Note) (i : String) :
    (∀ n : Note, n ∈ applyEvent l (.deleted i) ↔ n ∈ l ∧ n.id ≠ i) ∧
    ((∀ n ∈ l, n.id ≠ i) → applyEvent l (.deleted i) = l) := by
  constructor
  · intro n
    show n ∈ l.filter (fun note => decide (note.id ≠ i)) ↔ _
    simp [List.mem_filter]
  · intro h
    show (l.filter fun note => decide (note.id ≠ i)) = l
    apply List.filter_eq_self.mpr
    intro a ha
    simpa using h a ha

/-- Witness for claim C8: deleting an id not present in a concrete list
leaves it unchanged. -/
theorem deleted_event_spec_witness :
    applyEvent [noteA, noteB] (NoteEvent.deleted noteC.id) = [noteA, noteB] :=
  (deleted_event_spec [noteA, noteB] noteC.id).2 (by decide)
theorem charToLower_idem (c : Char) : c.toLower.toLower = c.toLower := by
  unfold Char.toLower
  by_cases h : c.toNat ≥ 65 ∧ c.toNat ≤ 90
  · rw [if_pos h]
    have hv : (Char.ofNat (c.toNat + 32)).toNat = c.toNat + 32 := by
      have hval : (c.toNat + 32).isValidChar := by
        left
        omega
      simp only [Char.ofNat, Char.ofNatAux]
      rw [dif_pos hval]
      rfl
    rw [if_neg]
    omega
  · rw [if_neg h, if_neg h]

theorem jsToLower_idem (s : String) : jsToLower (jsToLower s) = jsToLower s := by
  cases s with
  | mk d =>
      show String.mk ((d.map Char.toLower).map Char.toLower)
          = String.mk (d.map Char.toLower)
      rw [List.map_map]
      exact congrArg String.mk
        (List.map_congr_left fun c _ => charToLower_idem c)

/-- Claim C9: the tag-add and tag-remove handlers preserve the tag-set
invariant (no duplicates, no empty strings, only lower-case strings); the
add handler only ever appends at the end (insertion order preserved); and
adding the inputs Work, work, work to an empty tag set yields exactly the
single tag work. -/
theorem tag_ops_preserve_invariant :
    (∀ input tags, TagInvariant tags → TagInvariant (handleAddTag input tags)) ∧
    (∀ t tags, TagInvariant tags → TagInvariant (handleRemoveTag t tags)) ∧
    (∀ input tags, handleAddTag input tags = tags ∨
        handleAddTag input tags = tags ++ [jsToLower (jsTrim input)]) ∧
    handleAddTag tagInputB (handleAddTag tagInputB (handleAddTag tagInputA []))
      = [tagInputB] := by
  refine ⟨?_, ?_, ?_, by decide⟩
  · intro input tags h
    unfold handleAddTag
    by_cases hcond : jsToLower (jsTrim input) ≠ "" ∧ jsToLower (jsTrim input) ∉ tags
    · rw [if_pos hcond]
      obtain ⟨hnd, hmem⟩ := h
      constructor
      · rw [List.nodup_append]
        refine ⟨hnd, List.nodup_singleton _, ?_⟩
        intro a ha hb
        have : a = jsToLower (jsTrim input) := by simpa using hb
        subst this
        exact hcond.2 ha
      · intro t ht
        rcases List.mem_append.mp ht with h1 | h1
        · exact hmem t h1
        · have : t = jsToLower (jsTrim input) := by simpa using h1
          subst this
          exact ⟨hcond.1, jsToLower_idem (jsTrim input)⟩
    · rw [if_neg hcond]
      exact h
  · intro t tags h
    obtain ⟨hnd, hmem⟩ := h
    exact ⟨hnd.filter _, fun a ha => hmem a (List.mem_of_mem_filter ha)⟩
  · intro input tags
    unfold handleAddTag
    by_cases hcond : jsToLower (jsTrim input) ≠ "" ∧ jsToLower (jsTrim input) ∉ tags
    · right
      rw [if_pos hcond]
    · left
      rw [if_neg hcond]

/-- Witness for claim C9: the invariant holds after adding the first input
of the spec scenario to the empty tag set. -/
theorem tag_ops_preserve_invariant_witness :
    TagInvariant (handleAddTag tagInputA []) :=
  tag_ops_preserve_invariant.1 tagInputA [] (by simp [TagInvariant])
/-- Claim C6: the derived authorization flag is true exactly when the note
owner equals the session identity, and is false whenever the session
identity is absent.  It is a pure function of the session and note passed
at evaluation time, never a field stored on the note. -/
theorem isAuthor_iff_owner (user : Option String) (n : Note) :
    (isAuthor user (some n) = true ↔ user = some n.user_id) ∧
    isAuthor none (some n) = false := by
  constructor
  · cases user with
    | none => simp [isAuthor]
    | some u => simp [isAuthor]
  · rfl

/-- Claim C3: the single-note load presents the identical failure message
for an id that matches no row at all and for an id whose rows are all
denied to the viewer by the row-level-security policies — in both cases the
query yields zero visible rows, PostgREST reports PGRST116, and the page
shows the not-found message. -/
theorem absent_and_denied_same_message (db : List Note) (viewer : Option String)
    (idAbsent idDenied : String)
    (h1 : ∀ r ∈ db, r.id ≠ idAbsent)
    (_hex : ∃ r ∈ db, r.id = idDenied)
    (h3 : ∀ r ∈ db, r.id = idDenied → canSelect viewer r = false) :
    fetchNoteOutcome db viewer idAbsent = fetchNoteOutcome db viewer idDenied ∧
    fetchNoteOutcome db viewer idAbsent = some msgNotFound := by
  have e1 : db.filter (fun r => canSelect viewer r && decide (r.id = idAbsent)) = [] := by
    apply List.filter_eq_nil_iff.mpr
    intro r hr
    simp [h1 r hr]
  have e2 : db.filter (fun r => canSelect viewer r && decide (r.id = idDenied)) = [] := by
    apply List.filter_eq_nil_iff.mpr
    intro r hr
    by_cases hid : r.id = idDenied
    · simp [h3 r hr hid]
    · simp [hid]
  have o1 : fetchNoteOutcome db viewer idAbsent = some msgNotFound := by
    unfold fetchNoteOutcome singleById
    rw [e1]
    simp
  have o2 : fetchNoteOutcome db viewer idDenied = some msgNotFound := by
    unfold fetchNoteOutcome singleById
    rw [e2]
    simp
  exact ⟨o1.trans o2.symm, o1⟩

/-- Witness for claim C3: against a store holding only the private note A of
user-1, a viewer authenticated as user-2 receives the same message for the
absent id of note C and for the denied id of note A. -/
theorem absent_and_denied_same_message_witness :
    fetchNoteOutcome [noteA] (some userTwo) noteC.id
      = fetchNoteOutcome [noteA] (some userTwo) noteA.id ∧
    fetchNoteOutcome [noteA] (some userTwo) noteC.id = some msgNotFound :=
  absent_and_denied_same_message [noteA] (some userTwo) noteC.id noteA.id
    (by decide) (by decide) (by decide)

/-- Claim C4 (counterexample): in the list view, updating a note owned by a
different user still issues a network request (the owner-scoped update) and
surfaces no local authorization error — the claimed local
`AuthorizationError` with no request does not happen on this path. -/
theorem list_view_update_sends_request_unowned :
    noteA.user_id ≠ userTwo ∧
    (handleUpdateNote (some userTwo) staleUpdatePayload).request ≠ none ∧
    (handleUpdateNote (some userTwo) staleUpdatePayload).errorMsg = none := by
  decide

/-- Claim C4 (amended): in the single-note view, saving or deleting a note
whose owner differs from the session identity issues no network request and
fails with the local permission error; in the list view no local ownership
check exists — the handlers always issue the request, scoped by the owner
predicate `user_id = session`, and rely on the store to reject it. -/
theorem single_view_unowned_mutation_local_error (u : String) (n : Note)
    (t c : String) (p : Bool) (tg : List String) (confirmed : Bool)
    (hown : n.user_id ≠ u) (ht : jsTrim t ≠ "") (hc : jsTrim c ≠ "") :
    handleSave (some u) (some n) false t c p tg n.id
      = { request := none, errorMsg := some .editPermissionDenied } ∧
    handleDelete (some u) (some n) confirmed
      = { request := none, errorMsg := some .deletePermissionDenied } ∧
    ∀ fd : NoteFormPayload, fd.id = some n.id →
      handleUpdateNote (some u) fd
        = { request := some (.updateReq n.id u fd.title fd.content
            fd.is_public fd.tags), errorMsg := none } := by
  have hauth : isAuthor (some u) (some n) = false := by
    simp only [isAuthor, decide_eq_false_iff_not]
    exact fun hh => hown hh.symm
  refine ⟨?_, ?_, ?_⟩
  · show (if jsTrim t = "" ∨ jsTrim c = "" then _
      else if ¬(false : Bool) ∧ ¬(isAuthor (some u) (some n)) then _
      else if (false : Bool) then _ else _) = _
    rw [if_neg (by simp [ht, hc])]
    rw [if_pos (by simp [hauth])]
  · show (if ¬(isAuthor (some u) (some n)) then _
      else if ¬confirmed then _ else _) = _
    rw [if_pos (by simp [hauth])]
  · intro fd hid
    show (match fd.id, some u with
      | some i, some u =>
          ({ request := some (.updateReq i u fd.title fd.content
              fd.is_public fd.tags), errorMsg := none } : HandlerResult)
      | _, _ => { request := none, errorMsg := none }) = _
    rw [hid]

/-- Witness for the amended claim C4 at a concrete unowned note. -/
theorem single_view_unowned_mutation_local_error_witness :
    handleSave (some userTwo) (some noteA) false noteA.title noteA.content
        false [] noteA.id
      = { request := none, errorMsg := some .editPermissionDenied } ∧
    handleDelete (some userTwo) (some noteA) true
      = { request := none, errorMsg := some .deletePermissionDenied } ∧
    ∀ fd : NoteFormPayload, fd.id = some noteA.id →
      handleUpdateNote (some userTwo) fd
        = { request := some (.updateReq noteA.id userTwo fd.title fd.content
            fd.is_public fd.tags), errorMsg := none } :=
  single_view_unowned_mutation_local_error userTwo noteA noteA.title
    noteA.content false [] true (by decide) (by decide) (by decide)

/-- Claim C5 (counterexample): submitting the list-view create form with an
empty title issues no network request but also surfaces no error at all —
the form silently drops the submission instead of yielding the claimed
`ValidationError`. -/
theorem note_form_empty_title_silent :
    jsTrim emptyTitleForm.title = "" ∧
    createViaListView (some userOne) emptyTitleForm
      = { request := none, errorMsg := none } := by
  decide

/-- Claim C5 (amended): a create draft whose title or body is empty after
trimming never issues a network request on either path; the single-note
editor surfaces the required-fields validation message, while the list-view
form silently drops the submission without surfacing any error. -/
theorem empty_draft_no_request (form : NoteFormState) (user : Option String)
    (h : jsTrim form.title = "" ∨ jsTrim form.content = "") :
    createViaListView user form = { request := none, errorMsg := none } ∧
    ∀ (u : String) (note : Option Note) (isNewNote pub : Bool)
      (tags : List String) (pid : String),
      handleSave (some u) note isNewNote form.title form.content pub tags pid
        = { request := none, errorMsg := some .titleContentRequired } := by
  constructor
  · have hsub : handleSubmit form none = none := by
      unfold handleSubmit
      rw [if_neg]
      intro hcon
      rcases h with h | h
      · exact hcon.1 h
      · exact hcon.2 h
    unfold createViaListView
    rw [hsub]
  · intro u note isNewNote pub tags pid
    show (if jsTrim form.title = "" ∨ jsTrim form.content = "" then _
      else if ¬isNewNote ∧ ¬(isAuthor (some u) note) then _
      else if isNewNote then _ else _) = _
    rw [if_pos h]

/-- Witness for the amended claim C5 at a concrete whitespace-only
content draft. -/
theorem empty_draft_no_request_witness :
    createViaListView (some userOne) emptyContentForm
      = { request := none, errorMsg := none } ∧
    ∀ (u : String) (note : Option Note) (isNewNote pub : Bool)
      (tags : List String) (pid : String),
      handleSave (some u) note isNewNote emptyContentForm.title
          emptyContentForm.content pub tags pid
        = { request := none, errorMsg := some .titleContentRequired } :=
  empty_draft_no_request emptyContentForm (some userOne) (by decide)

/-- Claim C10: the list-view create handler inserts a row carrying only
title, content and owner id — the visibility and tag columns are omitted
regardless of the submitted form data — so the persisted note takes the
table defaults: private (`is_public = false`) with an empty tag set. -/
theorem list_view_create_private_empty_tags (u : String) (fd : NoteFormPayload) :
    ∃ row : NotesInsert,
      (handleAddNote (some u) fd).request = some (.insertReq row) ∧
      row.is_public = none ∧ row.tags = none ∧
      ∀ (newId : String) (now : Nat),
        (persistRow row newId now).is_public = false ∧
        (persistRow row newId now).tags = [] :=
  ⟨_, rfl, rfl, rfl, fun _ _ => ⟨rfl, rfl⟩⟩
